import Mathlib

/-!
Shallow embedding of the B.I.E.R inventory-management core
(`src/bierapp/backend/services.py` over the persistence port of
`src/bierapp/contracts.py`).  The four Mongo collections (`produkte`,
`lager`, `inventar`, `events`) become lists of typed documents; each
service method becomes a function from a database state to either a
domain error or a new state.  Python `ValueError` is modelled as
`Err.invalidArgument`, `KeyError` as `Err.notFound`; a raised error
returns no state, which encodes that the source raises before any
persistence write.  Python floats carrying prices/weights are modelled
as rationals; wall-clock timestamps of audit events are environmental
and are not modelled.
-/

namespace BierApp

/-- Document of the `produkte` collection.  `preis` is an `Option`
because a stored document may lack the field (the source reads it with
`product.get("preis", 0.0)`); `none` models an absent field. -/
structure Produkt where
  pid : String
  name : String
  beschreibung : String
  gewicht : Rat
  preis : Option Rat
  deriving DecidableEq, Repr

/-- Document of the `lager` collection. -/
structure Lager where
  wid : String
  lagername : String
  adresse : String
  max_plaetze : Int
  deriving DecidableEq, Repr

/-- Document of the `inventar` junction collection.  `eid` is the Mongo
`_id` assigned on insert; `menge` is an unbounded Python integer. -/
structure InvEntry where
  eid : Nat
  lager_id : String
  produkt_id : String
  menge : Int
  deriving DecidableEq, Repr

/-- Document of the append-only `events` collection (the wall-clock
`timestamp` field written by `_now_iso` is not modelled). -/
structure AuditEvent where
  entity_type : String
  action : String
  entity_id : String
  performed_by : String
  summary : String
  deriving DecidableEq, Repr

/-- Whole database state seen through the persistence port.  `nextId` is
the source of the fresh `_id` handed out by `insert` on the `inventar`
collection. -/
structure DBState where
  produkte : List Produkt
  lager : List Lager
  inventar : List InvEntry
  events : List AuditEvent
  nextId : Nat
  deriving DecidableEq, Repr

/-- Domain error taxonomy: Python `ValueError` / `KeyError` as surfaced
by the services. -/
inductive Err where
  | invalidArgument (msg : String)
  | notFound (msg : String)
  deriving DecidableEq, Repr

/-! ### Persistence-port primitives (`find_by_id`, `find_inventory_entry`,
`find_inventory_by_warehouse`, `update` with `$set`, `delete`, `insert`)
specialised to the typed collections.  `find_one`/`update_one`/`delete_one`
act on the first matching document. -/

/-- Predicate of a `find_by_id` lookup on the `produkte` collection. -/
def pidPred (pid : String) : Produkt → Bool :=
  fun pr => pr.pid == pid

/-- Port `find_by_id` on the `produkte` collection. -/
def findProdukt (s : DBState) (pid : String) : Option Produkt :=
  s.produkte.find? (pidPred pid)

/-- Predicate of a `find_by_id` lookup on the `lager` collection. -/
def widPred (wid : String) : Lager → Bool :=
  fun wh => wh.wid == wid

/-- Port `find_by_id` on the `lager` collection. -/
def findLager (s : DBState) (wid : String) : Option Lager :=
  s.lager.find? (widPred wid)

/-- Predicate of the port query `find_inventory_entry(w, p)`. -/
def keyMatch (e : InvEntry) (w p : String) : Bool :=
  e.lager_id == w && e.produkt_id == p

/-- Predicate form of `keyMatch` with the pair fixed first, as used by
the store queries. -/
def keyPred (w p : String) : InvEntry → Bool :=
  fun e => keyMatch e w p

/-- Port `find_inventory_entry`: the single inventory row of a
(warehouse, product) pair, `find_one` semantics. -/
def findInventoryEntry (s : DBState) (w p : String) : Option InvEntry :=
  s.inventar.find? (keyPred w p)

/-- Port `find_inventory_by_warehouse`: all inventory rows of one
warehouse, in store order. -/
def findInventoryByWarehouse (s : DBState) (w : String) : List InvEntry :=
  s.inventar.filter (fun e => e.lager_id == w)

/-- Port `update(inventar, eid, {menge: m})`: `$set` of the `menge`
field on the first document with the given `_id`. -/
def updateMenge : List InvEntry → Nat → Int → List InvEntry
  | [], _, _ => []
  | e :: rest, d, m =>
      if e.eid == d then { e with menge := m } :: rest
      else e :: updateMenge rest d m

/-- Port `delete(inventar, eid)`: removes the first document with the
given `_id`. -/
def deleteInv : List InvEntry → Nat → List InvEntry
  | [], _ => []
  | e :: rest, d => if e.eid == d then rest else e :: deleteInv rest d

/-- Port `insert(inventar, {lager_id, produkt_id, menge})` with a fresh
`_id`. -/
def insertInv (s : DBState) (w p : String) (m : Int) : DBState :=
  { s with
      inventar := s.inventar ++ [⟨s.nextId, w, p, m⟩],
      nextId := s.nextId + 1 }

/-- Port `insert(events, ...)`: the audit log is append-only. -/
def insertEvent (s : DBState) (ev : AuditEvent) : DBState :=
  { s with events := s.events ++ [ev] }

/-- Merge of the `allowed` dict of `ProductService.update_product` into
a stored product document (`$set` of the provided fields). -/
def setProduktFields (pr : Produkt) (n b : Option String) (g : Option Rat) : Produkt :=
  { pr with
      name := n.getD pr.name,
      beschreibung := b.getD pr.beschreibung,
      gewicht := g.getD pr.gewicht }

/-- Port `update(produkte, pid, allowed)`: `$set` on the first document
with the given `_id`. -/
def updateProduktList : List Produkt → String → Option String → Option String → Option Rat → List Produkt
  | [], _, _, _, _ => []
  | pr :: rest, pid, n, b, g =>
      if pr.pid == pid then setProduktFields pr n b g :: rest
      else pr :: updateProduktList rest pid n b g

/-- Merge of the `allowed` dict of `WarehouseService.update_warehouse`
into a stored warehouse document. -/
def setLagerFields (wh : Lager) (n a : Option String) (mp : Option Int) : Lager :=
  { wh with
      lagername := n.getD wh.lagername,
      adresse := a.getD wh.adresse,
      max_plaetze := mp.getD wh.max_plaetze }

/-- Port `update(lager, wid, allowed)`. -/
def updateLagerList : List Lager → String → Option String → Option String → Option Int → List Lager
  | [], _, _, _, _ => []
  | wh :: rest, wid, n, a, mp =>
      if wh.wid == wid then setLagerFields wh n a mp :: rest
      else wh :: updateLagerList rest wid n a mp

/-! ### Error messages of the source (apostrophes of the Python
f-strings around interpolated names are dropped). -/

/-- Message of `add_product` for a negative quantity. -/
def addQtyMsg : String :=
  "Menge muss eine nicht-negative ganze Zahl sein."

/-- Message of `update_quantity` for a negative quantity. -/
def setQtyMsg : String :=
  "Menge darf nicht negativ sein."

/-- Message of `remove_stock` for a non-positive quantity. -/
def removeQtyMsg : String :=
  "Menge zum Entnehmen muss eine positive ganze Zahl sein."

/-- Message of `move_product` for a non-positive quantity. -/
def moveQtyMsg : String :=
  "Menge zum Verschieben muss eine positive ganze Zahl sein."

/-- Message for a missing warehouse (`add_product` and others). -/
def lagerNotFoundMsg (w : String) : String :=
  "Lager " ++ w ++ " nicht gefunden."

/-- Message of `move_product` for a missing source warehouse. -/
def srcNotFoundMsg (w : String) : String :=
  "Quelllager " ++ w ++ " nicht gefunden."

/-- Message of `move_product` for a missing target warehouse. -/
def dstNotFoundMsg (w : String) : String :=
  "Ziellager " ++ w ++ " nicht gefunden."

/-- Message for a missing product. -/
def produktNotFoundMsg (p : String) : String :=
  "Produkt " ++ p ++ " nicht gefunden."

/-- Message for a missing inventory entry of a pair. -/
def entryNotFoundMsg (w p : String) : String :=
  "Kein Inventareintrag für Lager " ++ w ++ " / Produkt " ++ p ++ "."

/-- Message of `remove_stock` for insufficient stock, reporting the
available and the requested amount. -/
def insufficientMsg (current q : Int) : String :=
  "Unzureichender Bestand. Verfügbar: " ++ toString current ++
    ", Angefordert: " ++ toString q ++ "."

/-- Message of `move_product` for insufficient stock. -/
def moveInsufficientMsg : String :=
  "Es können nicht mehr Einheiten verschoben werden als vorhanden sind."

/-- Message of `update_product` for an empty name. -/
def emptyNameMsg : String :=
  "Produktname darf nicht leer sein."

/-- Message for a negative weight. -/
def negWeightMsg : String :=
  "Gewicht muss >= 0 sein."

/-- Message of `update_warehouse` for an empty warehouse name. -/
def emptyLagerNameMsg : String :=
  "Lagername darf nicht leer sein."

/-- Message of `update_warehouse` for a non-positive capacity. -/
def maxPlaetzeMsg : String :=
  "max_plaetze muss eine positive ganze Zahl sein."

/-- Message of `update_warehouse` for a capacity below the number of
stocked distinct products. -/
def capacityShrinkMsg (mp : Int) (cnt : Nat) : String :=
  "Maximale Plätze (" ++ toString mp ++
    ") darf nicht kleiner sein als die Anzahl der bereits eingelagerten Produkte (" ++
    toString cnt ++ ")."

/-! ### InventoryService -/

/-- Embedding of `InventoryService.add_product`. -/
def add_product (s : DBState) (warehouse_id product_id : String) (quantity : Int)
    (performed_by : String) : Except Err DBState :=
  if quantity < 0 then .error (.invalidArgument addQtyMsg)
  else
    match findLager s warehouse_id with
    | none => .error (.notFound (lagerNotFoundMsg warehouse_id))
    | some warehouse =>
      match findProdukt s product_id with
      | none => .error (.notFound (produktNotFoundMsg product_id))
      | some product =>
        let s1 :=
          match findInventoryEntry s warehouse_id product_id with
          | some existing =>
              { s with inventar := updateMenge s.inventar existing.eid (existing.menge + quantity) }
          | none => insertInv s warehouse_id product_id quantity
        .ok (insertEvent s1
          { entity_type := "inventar", action := "stock_add",
            entity_id := warehouse_id ++ ":" ++ product_id,
            performed_by := performed_by,
            summary := "Bestand: " ++ toString quantity ++ "x " ++ product.name ++
              " zu Lager " ++ warehouse.lagername ++ " hinzugefügt." })

/-- Embedding of `InventoryService.update_quantity` (absolute set). -/
def update_quantity (s : DBState) (warehouse_id product_id : String) (quantity : Int)
    (performed_by : String) : Except Err DBState :=
  if quantity < 0 then .error (.invalidArgument setQtyMsg)
  else
    match findInventoryEntry s warehouse_id product_id with
    | none => .error (.notFound (entryNotFoundMsg warehouse_id product_id))
    | some entry =>
      let s1 := { s with inventar := updateMenge s.inventar entry.eid quantity }
      let pname := ((findProdukt s1 product_id).map Produkt.name).getD product_id
      let wname := ((findLager s1 warehouse_id).map Lager.lagername).getD warehouse_id
      .ok (insertEvent s1
        { entity_type := "inventar", action := "stock_update",
          entity_id := warehouse_id ++ ":" ++ product_id,
          performed_by := performed_by,
          summary := "Bestand von " ++ pname ++ " in Lager " ++ wname ++
            " auf " ++ toString quantity ++ " gesetzt." })

/-- Embedding of `InventoryService.remove_product` (delete the row). -/
def remove_product (s : DBState) (warehouse_id product_id : String)
    (performed_by : String) : Except Err DBState :=
  match findInventoryEntry s warehouse_id product_id with
  | none => .error (.notFound (entryNotFoundMsg warehouse_id product_id))
  | some entry =>
    let s1 := { s with inventar := deleteInv s.inventar entry.eid }
    let pname := ((findProdukt s1 product_id).map Produkt.name).getD product_id
    let wname := ((findLager s1 warehouse_id).map Lager.lagername).getD warehouse_id
    .ok (insertEvent s1
      { entity_type := "inventar", action := "stock_remove",
        entity_id := warehouse_id ++ ":" ++ product_id,
        performed_by := performed_by,
        summary := "Bestandseintrag von " ++ pname ++ " in Lager " ++ wname ++
          " entfernt." })

/-- Embedding of `InventoryService.remove_stock` (relative decrement).
The row is kept even when the remaining quantity is exactly 0. -/
def remove_stock (s : DBState) (warehouse_id product_id : String) (quantity : Int)
    (performed_by : String) : Except Err DBState :=
  if quantity ≤ 0 then .error (.invalidArgument removeQtyMsg)
  else
    match findInventoryEntry s warehouse_id product_id with
    | none => .error (.notFound (entryNotFoundMsg warehouse_id product_id))
    | some entry =>
      let current := entry.menge
      if current < quantity then
        .error (.invalidArgument (insufficientMsg current quantity))
      else
        let remaining := current - quantity
        let s1 := { s with inventar := updateMenge s.inventar entry.eid remaining }
        let pname := ((findProdukt s1 product_id).map Produkt.name).getD product_id
        let wname := ((findLager s1 warehouse_id).map Lager.lagername).getD warehouse_id
        .ok (insertEvent s1
          { entity_type := "inventar", action := "stock_out",
            entity_id := warehouse_id ++ ":" ++ product_id,
            performed_by := performed_by,
            summary := toString quantity ++ "x " ++ pname ++ " aus Lager " ++ wname ++
              " entnommen (Restbestand: " ++ toString remaining ++ ")." })

/-- Price contribution of one inventory row inside
`get_total_inventory_value`: the referenced product is looked up, a
missing product or a missing `preis` field counts as price 0. -/
def entryValue (s : DBState) (e : InvEntry) : Rat :=
  (match findProdukt s e.produkt_id with
   | some pr => pr.preis.getD 0
   | none => 0) * e.menge

/-- Accumulator loop of `get_total_inventory_value`. -/
def totalLoop (s : DBState) : List InvEntry → Rat → Rat
  | [], total => total
  | e :: rest, total => totalLoop s rest (total + entryValue s e)

/-- Embedding of `InventoryService.get_total_inventory_value`.  The
state is threaded through unchanged: the method only performs port
reads. -/
def get_total_inventory_value (s : DBState) : DBState × Rat :=
  (s, totalLoop s s.inventar 0)

/-- Embedding of `InventoryService.move_product`. -/
def move_product (s : DBState) (source_warehouse_id target_warehouse_id product_id : String)
    (quantity : Int) : Except Err DBState :=
  if quantity ≤ 0 then .error (.invalidArgument moveQtyMsg)
  else
    match findLager s source_warehouse_id with
    | none => .error (.notFound (srcNotFoundMsg source_warehouse_id))
    | some source_warehouse =>
      match findLager s target_warehouse_id with
      | none => .error (.notFound (dstNotFoundMsg target_warehouse_id))
      | some target_warehouse =>
        match findProdukt s product_id with
        | none => .error (.notFound (produktNotFoundMsg product_id))
        | some product =>
          match findInventoryEntry s source_warehouse_id product_id with
          | none => .error (.notFound (entryNotFoundMsg source_warehouse_id product_id))
          | some entry =>
            let current := entry.menge
            if current < quantity then .error (.invalidArgument moveInsufficientMsg)
            else
              let remaining := current - quantity
              let s1 :=
                if 0 < remaining then
                  { s with inventar := updateMenge s.inventar entry.eid remaining }
                else
                  { s with inventar := deleteInv s.inventar entry.eid }
              let s2 :=
                match findInventoryEntry s1 target_warehouse_id product_id with
                | some target_entry =>
                    { s1 with inventar := updateMenge s1.inventar target_entry.eid (target_entry.menge + quantity) }
                | none => insertInv s1 target_warehouse_id product_id quantity
              .ok (insertEvent s2
                { entity_type := "inventar", action := "stock_move",
                  entity_id := product_id,
                  performed_by := "system",
                  summary := toString quantity ++ "x " ++ product.name ++ " von Lager " ++
                    source_warehouse.lagername ++ " nach " ++ target_warehouse.lagername ++
                    " verschoben." })

/-- Projection of one inventory row as produced by
`InventoryService.list_inventory`. -/
structure EnrichedEntry where
  eid : Nat
  lager_id : String
  produkt_id : String
  produkt_name : String
  produkt_beschreibung : String
  menge : Int
  deriving DecidableEq, Repr

/-- Embedding of `InventoryService.list_inventory`; the state is
threaded through unchanged (the method only performs port reads). -/
def list_inventory (s : DBState) (warehouse_id : String) :
    Except Err (DBState × List EnrichedEntry) :=
  match findLager s warehouse_id with
  | none => .error (.notFound (lagerNotFoundMsg warehouse_id))
  | some _ =>
    let entries := findInventoryByWarehouse s warehouse_id
    .ok (s, entries.map (fun e =>
      let product := findProdukt s e.produkt_id
      { eid := e.eid,
        lager_id := warehouse_id,
        produkt_id := e.produkt_id,
        produkt_name := match product with | some pr => pr.name | none => "?",
        produkt_beschreibung := match product with | some pr => pr.beschreibung | none => "",
        menge := e.menge }))

/-! ### ProductService.update_product and WarehouseService.update_warehouse -/

/-- Partial-update payload of `ProductService.update_product`.  A
`preis` key may be present in the Python dict; the method never reads
it. -/
structure ProduktUpdate where
  name : Option String
  beschreibung : Option String
  gewicht : Option Rat
  preis : Option Rat
  deriving DecidableEq, Repr

/-- Validation of a provided `name` key: trimmed, must be non-empty. -/
def checkName : Option String → Except Err (Option String)
  | none => .ok none
  | some n =>
      let n1 := n.trim
      if n1 = "" then .error (.invalidArgument emptyNameMsg) else .ok (some n1)

/-- Validation of a provided `gewicht` key: must be non-negative. -/
def checkGewicht : Option Rat → Except Err (Option Rat)
  | none => .ok none
  | some g => if g < 0 then .error (.invalidArgument negWeightMsg) else .ok (some g)

/-- Embedding of `ProductService.update_product`.  Only the `name`,
`beschreibung` and `gewicht` keys of the payload are read; a supplied
`preis` is ignored.  The returned document is the re-fetched product
(`find_by_id ... or {}` modelled as an `Option`). -/
def update_product (s : DBState) (product_id : String) (data : ProduktUpdate) :
    Except Err (DBState × Option Produkt) :=
  match findProdukt s product_id with
  | none => .error (.notFound (produktNotFoundMsg product_id))
  | some _ =>
    match checkName data.name with
    | .error err => .error err
    | .ok name1 =>
      let besch1 := data.beschreibung.map String.trim
      match checkGewicht data.gewicht with
      | .error err => .error err
      | .ok gew1 =>
        let s1 := { s with produkte := updateProduktList s.produkte product_id name1 besch1 gew1 }
        let updated := findProdukt s1 product_id
        let uname := (updated.map Produkt.name).getD product_id
        .ok (insertEvent s1
          { entity_type := "produkt", action := "update",
            entity_id := product_id, performed_by := "system",
            summary := "Produkt " ++ uname ++ " aktualisiert." }, updated)

/-- Partial-update payload of `WarehouseService.update_warehouse`. -/
structure LagerUpdate where
  lagername : Option String
  adresse : Option String
  max_plaetze : Option Int
  deriving DecidableEq, Repr

/-- Validation of a provided `lagername` key. -/
def checkLagerName : Option String → Except Err (Option String)
  | none => .ok none
  | some n =>
      let n1 := n.trim
      if n1 = "" then .error (.invalidArgument emptyLagerNameMsg) else .ok (some n1)

/-- Count of distinct product ids stocked in a warehouse, as computed by
`update_warehouse`: inventory rows with a truthy (non-empty) product
reference, deduplicated. -/
def distinctProduktCount (entries : List InvEntry) : Nat :=
  (((entries.filter (fun e => e.produkt_id != "")).map InvEntry.produkt_id).dedup).length

/-- Validation of a provided `max_plaetze` key: positive, and not below
the distinct-product count of the warehouse. -/
def checkMaxPlaetze (s : DBState) (warehouse_id : String) : Option Int → Except Err (Option Int)
  | none => .ok none
  | some mp =>
      if mp ≤ 0 then .error (.invalidArgument maxPlaetzeMsg)
      else
        let cnt := distinctProduktCount (findInventoryByWarehouse s warehouse_id)
        if mp < (cnt : Int) then .error (.invalidArgument (capacityShrinkMsg mp cnt))
        else .ok (some mp)

/-- Embedding of `WarehouseService.update_warehouse`. -/
def update_warehouse (s : DBState) (warehouse_id : String) (data : LagerUpdate) :
    Except Err (DBState × Option Lager) :=
  match findLager s warehouse_id with
  | none => .error (.notFound (lagerNotFoundMsg warehouse_id))
  | some _ =>
    match checkLagerName data.lagername with
    | .error err => .error err
    | .ok name1 =>
      let adr1 := data.adresse.map String.trim
      match checkMaxPlaetze s warehouse_id data.max_plaetze with
      | .error err => .error err
      | .ok mp1 =>
        let s1 := { s with lager := updateLagerList s.lager warehouse_id name1 adr1 mp1 }
        let updated := findLager s1 warehouse_id
        let uname := (updated.map Lager.lagername).getD warehouse_id
        .ok (insertEvent s1
          { entity_type := "lager", action := "update",
            entity_id := warehouse_id, performed_by := "system",
            summary := "Lager " ++ uname ++ " aktualisiert." }, updated)

/-! ### Observables and invariants -/

/-- Stock level read off a state: the `menge` of the (warehouse,
product) row, an absent row counting as 0. -/
def qty (s : DBState) (w p : String) : Int :=
  match findInventoryEntry s w p with
  | some e => e.menge
  | none => 0

/-- Number of inventory rows of one (warehouse, product) pair. -/
def countKey (l : List InvEntry) (w p : String) : Nat :=
  l.countP (keyPred w p)

/-- Key of an inventory row: its (warehouse, product) pair. -/
def invKey (e : InvEntry) : String × String :=
  (e.lager_id, e.produkt_id)

/-- Uniqueness invariant: at most one inventory row per (warehouse,
product) pair. -/
def UniqKeys (l : List InvEntry) : Prop :=
  (l.map invKey).Nodup

/-- The Mongo `_id`s of the inventory rows are pairwise distinct. -/
def NodupIds (l : List InvEntry) : Prop :=
  (l.map InvEntry.eid).Nodup

/-- Every stored inventory `_id` is below the next fresh id. -/
def FreshIds (s : DBState) : Prop :=
  ∀ e ∈ s.inventar, e.eid < s.nextId

/-- Well-formed state: distinct `_id`s, fresh-id counter ahead of all
stored ids, and at most one row per (warehouse, product) pair. -/
def WF (s : DBState) : Prop :=
  NodupIds s.inventar ∧ FreshIds s ∧ UniqKeys s.inventar

/-! ### Facts about keys, ids, and the store primitives -/

theorem keyPred_menge (w p : String) (e : InvEntry) (m : Int) :
    keyPred w p { e with menge := m } = keyPred w p e := rfl

theorem keyPred_iff {e : InvEntry} {w p : String} :
    keyPred w p e = true ↔ e.lager_id = w ∧ e.produkt_id = p := by
  simp [keyPred, keyMatch]

theorem invKey_eq_of_keyPred {e : InvEntry} {w p : String}
    (h : keyPred w p e = true) : invKey e = (w, p) := by
  rcases keyPred_iff.mp h with ⟨h1, h2⟩
  simp [invKey, h1, h2]

theorem keyPred_of_invKey_eq {e : InvEntry} {w p : String}
    (h : invKey e = (w, p)) : keyPred w p e = true := by
  rw [invKey, Prod.mk.injEq] at h
  exact keyPred_iff.mpr h

theorem eq_of_mem_nodup_ids {l : List InvEntry} (hn : NodupIds l)
    {x y : InvEntry} (hx : x ∈ l) (hy : y ∈ l) (h : x.eid = y.eid) : x = y := by
  induction l with
  | nil => cases hx
  | cons a t ih =>
    rw [NodupIds, List.map_cons, List.nodup_cons] at hn
    rcases hn with ⟨ha, ht⟩
    rcases List.mem_cons.mp hx with rfl | hx₁ <;> rcases List.mem_cons.mp hy with rfl | hy₁
    · rfl
    · have hmem := List.mem_map_of_mem InvEntry.eid hy₁
      rw [← h] at hmem
      exact absurd hmem ha
    · have hmem := List.mem_map_of_mem InvEntry.eid hx₁
      rw [h] at hmem
      exact absurd hmem ha
    · exact ih ht hx₁ hy₁

theorem map_invKey_updateMenge (l : List InvEntry) (d : Nat) (m : Int) :
    (updateMenge l d m).map invKey = l.map invKey := by
  induction l with
  | nil => rfl
  | cons a t ih =>
    by_cases h : a.eid = d
    · simp [updateMenge, h, invKey]
    · simp [updateMenge, h, ih]

theorem map_eid_updateMenge (l : List InvEntry) (d : Nat) (m : Int) :
    (updateMenge l d m).map InvEntry.eid = l.map InvEntry.eid := by
  induction l with
  | nil => rfl
  | cons a t ih =>
    by_cases h : a.eid = d
    · simp [updateMenge, h]
    · simp [updateMenge, h, ih]

theorem updateMenge_cons_self {a : InvEntry} (t : List InvEntry) (m : Int) :
    updateMenge (a :: t) a.eid m = { a with menge := m } :: t := by
  simp [updateMenge]

theorem updateMenge_cons_ne {a : InvEntry} {d : Nat} (h : a.eid ≠ d)
    (t : List InvEntry) (m : Int) :
    updateMenge (a :: t) d m = a :: updateMenge t d m := by
  simp [updateMenge, h]

theorem deleteInv_cons_self {a : InvEntry} (t : List InvEntry) :
    deleteInv (a :: t) a.eid = t := by
  simp [deleteInv]

theorem deleteInv_cons_ne {a : InvEntry} {d : Nat} (h : a.eid ≠ d) (t : List InvEntry) :
    deleteInv (a :: t) d = a :: deleteInv t d := by
  simp [deleteInv, h]

theorem deleteInv_sublist (l : List InvEntry) (d : Nat) : (deleteInv l d).Sublist l := by
  induction l with
  | nil => simp [deleteInv]
  | cons a t ih =>
    by_cases hd : a.eid = d
    · rw [show deleteInv (a :: t) d = t from by simp [deleteInv, hd]]
      exact List.sublist_cons_self a t
    · rw [deleteInv_cons_ne hd]
      exact ih.cons₂ a

theorem find?_updateMenge_self {l : List InvEntry} {w p : String} {e : InvEntry}
    (hn : NodupIds l) (hf : l.find? (keyPred w p) = some e) (m : Int) :
    (updateMenge l e.eid m).find? (keyPred w p) = some { e with menge := m } := by
  induction l with
  | nil => simp at hf
  | cons a t ih =>
    rw [NodupIds, List.map_cons, List.nodup_cons] at hn
    rcases hn with ⟨ha, ht⟩
    cases hk : keyPred w p a with
    | true =>
      rw [List.find?_cons_of_pos _ hk] at hf
      injection hf with hf
      subst hf
      rw [updateMenge_cons_self]
      exact List.find?_cons_of_pos _ (by rw [keyPred_menge]; exact hk)
    | false =>
      rw [List.find?_cons_of_neg _ (by simp [hk])] at hf
      have hne : a.eid ≠ e.eid := by
        intro hae
        exact ha (hae ▸ List.mem_map_of_mem InvEntry.eid (List.mem_of_find?_eq_some hf))
      rw [updateMenge_cons_ne hne]
      rw [List.find?_cons_of_neg _ (by simp [hk])]
      exact ih ht hf

theorem find?_updateMenge_other {l : List InvEntry} {d : Nat} {w p : String}
    (h : ∀ x ∈ l, x.eid = d → keyPred w p x = false) (m : Int) :
    (updateMenge l d m).find? (keyPred w p) = l.find? (keyPred w p) := by
  induction l with
  | nil => rfl
  | cons a t ih =>
    by_cases hd : a.eid = d
    · have hk : keyPred w p a = false := h a (List.mem_cons_self a t) hd
      rw [show updateMenge (a :: t) d m = { a with menge := m } :: t from by
        simp [updateMenge, hd]]
      rw [List.find?_cons_of_neg _ (by rw [keyPred_menge]; simp [hk]),
        List.find?_cons_of_neg _ (by simp [hk])]
    · rw [updateMenge_cons_ne hd]
      cases hk : keyPred w p a with
      | true => rw [List.find?_cons_of_pos _ hk, List.find?_cons_of_pos _ hk]
      | false =>
        rw [List.find?_cons_of_neg _ (by simp [hk]), List.find?_cons_of_neg _ (by simp [hk])]
        exact ih (fun x hx => h x (List.mem_cons_of_mem _ hx))

theorem find?_deleteInv_self {l : List InvEntry} {w p : String} {e : InvEntry}
    (hn : NodupIds l) (hu : UniqKeys l)
    (hf : l.find? (keyPred w p) = some e) :
    (deleteInv l e.eid).find? (keyPred w p) = none := by
  induction l with
  | nil => simp at hf
  | cons a t ih =>
    rw [NodupIds, List.map_cons, List.nodup_cons] at hn
    rcases hn with ⟨hna, hnt⟩
    rw [UniqKeys, List.map_cons, List.nodup_cons] at hu
    rcases hu with ⟨hua, hut⟩
    cases hk : keyPred w p a with
    | true =>
      rw [List.find?_cons_of_pos _ hk] at hf
      injection hf with hf
      subst hf
      rw [deleteInv_cons_self, List.find?_eq_none]
      intro x hx hkx
      apply hua
      have hx1 := List.mem_map_of_mem invKey hx
      rw [invKey_eq_of_keyPred hkx] at hx1
      rw [invKey_eq_of_keyPred hk]
      exact hx1
    | false =>
      rw [List.find?_cons_of_neg _ (by simp [hk])] at hf
      have hne : a.eid ≠ e.eid := by
        intro hae
        exact hna (hae ▸ List.mem_map_of_mem InvEntry.eid (List.mem_of_find?_eq_some hf))
      rw [deleteInv_cons_ne hne, List.find?_cons_of_neg _ (by simp [hk])]
      exact ih hnt hut hf

theorem find?_deleteInv_other {l : List InvEntry} {d : Nat} {w p : String}
    (h : ∀ x ∈ l, x.eid = d → keyPred w p x = false) :
    (deleteInv l d).find? (keyPred w p) = l.find? (keyPred w p) := by
  induction l with
  | nil => rfl
  | cons a t ih =>
    by_cases hd : a.eid = d
    · have hk : keyPred w p a = false := h a (List.mem_cons_self a t) hd
      rw [show deleteInv (a :: t) d = t from by simp [deleteInv, hd]]
      rw [List.find?_cons_of_neg _ (by simp [hk])]
    · rw [deleteInv_cons_ne hd]
      cases hk : keyPred w p a with
      | true => rw [List.find?_cons_of_pos _ hk, List.find?_cons_of_pos _ hk]
      | false =>
        rw [List.find?_cons_of_neg _ (by simp [hk]), List.find?_cons_of_neg _ (by simp [hk])]
        exact ih (fun x hx => h x (List.mem_cons_of_mem _ hx))

theorem find?_append_some {l l₂ : List InvEntry} {q : InvEntry → Bool} {a : InvEntry}
    (h : l.find? q = some a) : (l ++ l₂).find? q = some a := by
  rw [List.find?_append, h]
  rfl

theorem find?_append_none {l l₂ : List InvEntry} {q : InvEntry → Bool}
    (h : l.find? q = none) : (l ++ l₂).find? q = l₂.find? q := by
  rw [List.find?_append, h]
  rfl

theorem countKey_eq_one {l : List InvEntry} {w p : String} {e : InvEntry}
    (hu : UniqKeys l) (hf : l.find? (keyPred w p) = some e) :
    countKey l w p = 1 := by
  induction l with
  | nil => simp at hf
  | cons a t ih =>
    rw [UniqKeys, List.map_cons, List.nodup_cons] at hu
    rcases hu with ⟨hua, hut⟩
    cases hk : keyPred w p a with
    | true =>
      have h0 : t.countP (keyPred w p) = 0 := by
        rw [List.countP_eq_zero]
        intro x hx hkx
        apply hua
        have hx1 := List.mem_map_of_mem invKey hx
        rw [invKey_eq_of_keyPred hkx] at hx1
        rw [invKey_eq_of_keyPred hk]
        exact hx1
      simp [countKey, List.countP_cons, hk, h0]
    | false =>
      rw [List.find?_cons_of_neg _ (by simp [hk])] at hf
      have h1 := ih hut hf
      simp only [countKey, List.countP_cons, hk] at h1 ⊢
      simpa using h1

theorem uniqKeys_updateMenge {l : List InvEntry} (hu : UniqKeys l) (d : Nat) (m : Int) :
    UniqKeys (updateMenge l d m) := by
  rw [UniqKeys, map_invKey_updateMenge]
  exact hu

theorem nodupIds_updateMenge {l : List InvEntry} (hn : NodupIds l) (d : Nat) (m : Int) :
    NodupIds (updateMenge l d m) := by
  rw [NodupIds, map_eid_updateMenge]
  exact hn

theorem uniqKeys_deleteInv {l : List InvEntry} (hu : UniqKeys l) (d : Nat) :
    UniqKeys (deleteInv l d) :=
  hu.sublist ((deleteInv_sublist l d).map invKey)

theorem nodupIds_deleteInv {l : List InvEntry} (hn : NodupIds l) (d : Nat) :
    NodupIds (deleteInv l d) :=
  hn.sublist ((deleteInv_sublist l d).map InvEntry.eid)

theorem uniqKeys_insert {l : List InvEntry} {w p : String}
    (hu : UniqKeys l) (hf : l.find? (keyPred w p) = none) (d : Nat) (m : Int) :
    UniqKeys (l ++ [⟨d, w, p, m⟩]) := by
  rw [UniqKeys, List.map_append, List.nodup_append]
  refine ⟨hu, by simp, ?_⟩
  intro k hk1 hk2
  simp only [List.map_cons, List.map_nil, List.mem_singleton] at hk2
  rcases List.mem_map.mp hk1 with ⟨x, hx, hkx⟩
  rw [List.find?_eq_none] at hf
  apply hf x hx
  apply keyPred_of_invKey_eq
  rw [hkx, hk2]
  rfl

theorem nodupIds_insert {l : List InvEntry} (hn : NodupIds l) {d : Nat}
    (hd : ∀ x ∈ l, x.eid ≠ d) (w p : String) (m : Int) :
    NodupIds (l ++ [⟨d, w, p, m⟩]) := by
  rw [NodupIds, List.map_append, List.nodup_append]
  refine ⟨hn, by simp, ?_⟩
  intro k hk1 hk2
  simp only [List.map_cons, List.map_nil, List.mem_singleton] at hk2
  rcases List.mem_map.mp hk1 with ⟨x, hx, hkx⟩
  exact hd x hx (hkx ▸ hk2 ▸ rfl)

/-! ### Success inversion of the mutating operations, at the level of the
`inventar` collection -/

/-- Effect of a successful `move_product` on the `inventar` collection,
given the source entry `e`: source-side update-or-delete followed by
target-side update-or-insert (`fresh` is the `_id` a target-side insert
receives). -/
def moveInventar (l : List InvEntry) (e : InvEntry) (dst p : String) (q : Int)
    (fresh : Nat) : List InvEntry :=
  let l1 := if 0 < e.menge - q then updateMenge l e.eid (e.menge - q) else deleteInv l e.eid
  match l1.find? (keyPred dst p) with
  | some t => updateMenge l1 t.eid (t.menge + q)
  | none => l1 ++ [⟨fresh, dst, p, q⟩]

theorem add_ok_inv {s : DBState} {w p : String} {q : Int} {pb : String} {s2 : DBState}
    (h : add_product s w p q pb = .ok s2) :
    ∃ wh pr, 0 ≤ q ∧ findLager s w = some wh ∧ findProdukt s p = some pr ∧
      s2.inventar =
        (match s.inventar.find? (keyPred w p) with
         | some ex => updateMenge s.inventar ex.eid (ex.menge + q)
         | none => s.inventar ++ [⟨s.nextId, w, p, q⟩]) := by
  simp only [add_product] at h
  split at h
  · exact Except.noConfusion h
  · split at h
    · exact Except.noConfusion h
    · split at h
      · exact Except.noConfusion h
      · rename_i xw wh hw xp pr hp
        injection h with h
        subst h
        refine ⟨wh, pr, by omega, hw, hp, ?_⟩
        simp only [findInventoryEntry, insertEvent, insertInv]
        cases hex : s.inventar.find? (keyPred w p) <;> simp [hex]

theorem update_quantity_ok_inv {s : DBState} {w p : String} {q : Int} {pb : String}
    {s2 : DBState} (h : update_quantity s w p q pb = .ok s2) :
    ∃ e, 0 ≤ q ∧ s.inventar.find? (keyPred w p) = some e ∧
      s2.inventar = updateMenge s.inventar e.eid q := by
  simp only [update_quantity] at h
  split at h
  · exact Except.noConfusion h
  · split at h
    · exact Except.noConfusion h
    · rename_i xe e he
      injection h with h
      subst h
      refine ⟨e, by omega, by rw [findInventoryEntry] at he; exact he, ?_⟩
      simp [insertEvent]

theorem remove_product_ok_inv {s : DBState} {w p : String} {pb : String}
    {s2 : DBState} (h : remove_product s w p pb = .ok s2) :
    ∃ e, s.inventar.find? (keyPred w p) = some e ∧
      s2.inventar = deleteInv s.inventar e.eid := by
  simp only [remove_product] at h
  split at h
  · exact Except.noConfusion h
  · rename_i xe e he
    injection h with h
    subst h
    refine ⟨e, by rw [findInventoryEntry] at he; exact he, ?_⟩
    simp [insertEvent]

theorem remove_stock_ok_inv {s : DBState} {w p : String} {q : Int} {pb : String}
    {s2 : DBState} (h : remove_stock s w p q pb = .ok s2) :
    ∃ e, 0 < q ∧ s.inventar.find? (keyPred w p) = some e ∧ q ≤ e.menge ∧
      s2.inventar = updateMenge s.inventar e.eid (e.menge - q) := by
  simp only [remove_stock] at h
  split at h
  · exact Except.noConfusion h
  · split at h
    · exact Except.noConfusion h
    · rename_i xe e he
      split at h
      · exact Except.noConfusion h
      · injection h with h
        subst h
        refine ⟨e, by omega, by rw [findInventoryEntry] at he; exact he, by omega, ?_⟩
        simp [insertEvent]

theorem move_ok_inv {s : DBState} {src dst p : String} {q : Int} {s2 : DBState}
    (h : move_product s src dst p q = .ok s2) :
    ∃ sw tw pr e, 0 < q ∧ findLager s src = some sw ∧ findLager s dst = some tw ∧
      findProdukt s p = some pr ∧ s.inventar.find? (keyPred src p) = some e ∧
      q ≤ e.menge ∧
      s2.inventar = moveInventar s.inventar e dst p q s.nextId := by
  simp only [move_product] at h
  split at h
  · exact Except.noConfusion h
  · split at h
    · exact Except.noConfusion h
    · split at h
      · exact Except.noConfusion h
      · split at h
        · exact Except.noConfusion h
        · split at h
          · exact Except.noConfusion h
          · rename_i xsw sw hsw xtw tw htw xpr pr hpr xe e he
            split at h
            · exact Except.noConfusion h
            · injection h with h
              subst h
              refine ⟨sw, tw, pr, e, by omega, hsw, htw, hpr,
                by rw [findInventoryEntry] at he; exact he, by omega, ?_⟩
              simp only [moveInventar, findInventoryEntry, insertEvent, insertInv]
              by_cases hrem : 0 < e.menge - q
              · rw [if_pos hrem, if_pos hrem]
                cases hdt : (updateMenge s.inventar e.eid (e.menge - q)).find? (keyPred dst p) <;>
                  simp [hdt]
              · rw [if_neg hrem, if_neg hrem]
                cases hdt : (deleteInv s.inventar e.eid).find? (keyPred dst p) <;>
                  simp [hdt]


theorem keyPred_eq_false_of_lager_ne {e : InvEntry} {w2 p : String}
    (hne : e.lager_id ≠ w2) : keyPred w2 p e = false := by
  cases hk : keyPred w2 p e with
  | false => rfl
  | true => exact absurd (keyPred_iff.mp hk).1 hne

theorem eid_key_other {l : List InvEntry} {w p : String} {e : InvEntry}
    (hn : NodupIds l) (he : l.find? (keyPred w p) = some e)
    {w2 : String} (hne : w ≠ w2) (p2 : String) :
    ∀ x ∈ l, x.eid = e.eid → keyPred w2 p2 x = false := by
  intro x hx hxe
  have hxeq : x = e := eq_of_mem_nodup_ids hn hx (List.mem_of_find?_eq_some he) hxe
  have h1 : x.lager_id = w := by
    rw [hxeq]
    exact (keyPred_iff.mp (List.find?_some he)).1
  exact keyPred_eq_false_of_lager_ne (by rw [h1]; exact hne)

instance (l : List InvEntry) : Decidable (UniqKeys l) :=
  inferInstanceAs (Decidable (l.map invKey).Nodup)

instance (l : List InvEntry) : Decidable (NodupIds l) :=
  inferInstanceAs (Decidable (l.map InvEntry.eid).Nodup)

instance (s : DBState) : Decidable (FreshIds s) :=
  inferInstanceAs (Decidable (∀ e ∈ s.inventar, e.eid < s.nextId))

instance (s : DBState) : Decidable (WF s) :=
  inferInstanceAs (Decidable (NodupIds s.inventar ∧ FreshIds s ∧ UniqKeys s.inventar))

/-! ### Concrete sample states used by witnesses and counterexamples -/

/-- Sample state: one product stocked in two of three warehouses. -/
def sState : DBState :=
  { produkte := [⟨"p1", "Nagel", "klein", 1/100, some 20⟩],
    lager := [⟨"w1", "Halle1", "A 1", 200⟩, ⟨"w2", "Halle2", "B 2", 100⟩,
      ⟨"w3", "Halle3", "C 3", 50⟩],
    inventar := [⟨0, "w1", "p1", 100⟩, ⟨1, "w2", "p1", 20⟩],
    events := [],
    nextId := 2 }

/-- Sample state for the total-value scenario: two priced products plus
an inventory row referencing a deleted product `p3`. -/
def c7State : DBState :=
  { produkte := [⟨"p1", "PfandEins", "", 1, some 20⟩, ⟨"p2", "PfandZwei", "", 1, some 50⟩],
    lager := [⟨"w1", "Halle", "", 100⟩],
    inventar := [⟨0, "w1", "p1", 10⟩, ⟨1, "w1", "p2", 5⟩, ⟨2, "w1", "p3", 7⟩],
    events := [],
    nextId := 3 }

/-! ### Claim theorems -/

/-- C9: `list_inventory` and `get_total_inventory_value` are pure reads.
In this embedding each returns the state it ran in; the theorem checks
that the returned state has every collection (products, warehouses,
inventory, audit events) equal to the input state, so neither operation
mutates state or emits an audit event. -/
theorem reads_do_not_mutate :
    (∀ s w s2 r, list_inventory s w = .ok (s2, r) →
      s2.produkte = s.produkte ∧ s2.lager = s.lager ∧
        s2.inventar = s.inventar ∧ s2.events = s.events) ∧
    (∀ s, (get_total_inventory_value s).1.produkte = s.produkte ∧
      (get_total_inventory_value s).1.lager = s.lager ∧
      (get_total_inventory_value s).1.inventar = s.inventar ∧
      (get_total_inventory_value s).1.events = s.events) := by
  constructor
  · intro s w s2 r h
    simp only [list_inventory] at h
    split at h
    · exact Except.noConfusion h
    · injection h with h
      injection h with h1 h2
      subst h1
      exact ⟨rfl, rfl, rfl, rfl⟩
  · intro s
    exact ⟨rfl, rfl, rfl, rfl⟩

/-- Result of `list_inventory sState "w1"`, for the C9 witness. -/
def sListOut : List EnrichedEntry :=
  [⟨0, "w1", "p1", "Nagel", "klein", 100⟩]

/-- Witness for C9 at a concrete state. -/
theorem reads_do_not_mutate_witness :
    sState.produkte = sState.produkte ∧ sState.lager = sState.lager ∧
      sState.inventar = sState.inventar ∧ sState.events = sState.events :=
  reads_do_not_mutate.1 sState "w1" sState sListOut (by rfl)

/-- Accumulator form of the total-value loop equals the sum of the
per-row values. -/
theorem totalLoop_eq (s : DBState) (l : List InvEntry) (t : Rat) :
    totalLoop s l t = t + (l.map (entryValue s)).sum := by
  induction l generalizing t with
  | nil => simp [totalLoop]
  | cons e rest ih =>
    simp only [totalLoop, ih, List.map_cons, List.sum_cons]
    ring

/-- C7: `get_total_inventory_value` returns the sum over all inventory
rows of `quantity × price`, where a row whose product is missing or
lacks a `preis` field contributes 0 (the `entryValue` of such a row is
0); on the concrete scenario of two priced products (10×20.0 and 5×50.0)
plus a row referencing a deleted product the result is 450. -/
theorem total_value_correct :
    (∀ s, (get_total_inventory_value s).2 = (s.inventar.map (entryValue s)).sum) ∧
    entryValue c7State ⟨2, "w1", "p3", 7⟩ = 0 ∧
    (get_total_inventory_value c7State).2 = 450 := by
  refine ⟨?_, ?_, ?_⟩
  · intro s
    rw [get_total_inventory_value, totalLoop_eq]
    ring
  · simp +decide [entryValue, c7State, findProdukt, pidPred, List.find?]
  · simp +decide [get_total_inventory_value, totalLoop, entryValue, c7State, findProdukt,
      pidPred, List.find?]
    norm_num

/-- C5: `remove_stock` with a request strictly above the available
quantity fails with `InvalidArgument` whose message reports both the
available and the requested amount.  The error carries no successor
state: in this embedding that encodes that the source raises before any
document write or audit-event insert, so the entry stays unchanged. -/
theorem remove_stock_insufficient :
    ∀ s w p q pb e, findInventoryEntry s w p = some e → 0 ≤ e.menge → e.menge < q →
      remove_stock s w p q pb = .error (.invalidArgument (insufficientMsg e.menge q)) := by
  intro s w p q pb e hf h0 hlt
  simp only [remove_stock]
  rw [if_neg (by omega : ¬ q ≤ 0), hf]
  dsimp only
  rw [if_pos hlt]

/-- Witness for C5: removing 150 from a stock of 100 fails and reports
both amounts. -/
theorem remove_stock_insufficient_witness :
    remove_stock sState "w1" "p1" 150 "system" =
      .error (.invalidArgument (insufficientMsg 100 150)) :=
  remove_stock_insufficient sState "w1" "p1" 150 "system" ⟨0, "w1", "p1", 100⟩
    (by rfl) (by decide) (by decide)


/-- C6: the validation failures of `move_product` are raised in a fixed
order — positivity of the quantity, then existence of the source
warehouse, the target warehouse and the product (each with its own
`NotFound` message, and those messages are pairwise distinct for all
ids), then existence of the source inventory entry, and only then
quantity sufficiency.  Each conjunct fixes the earlier checks and
leaves everything later unconstrained, so when several preconditions
are violated at once the raised error is the earliest in this order. -/
theorem move_error_priority :
    (∀ s src dst p q, q ≤ 0 →
        move_product s src dst p q = .error (.invalidArgument moveQtyMsg)) ∧
    (∀ s src dst p q, 0 < q → findLager s src = none →
        move_product s src dst p q = .error (.notFound (srcNotFoundMsg src))) ∧
    (∀ s src dst p q, 0 < q → (findLager s src).isSome → findLager s dst = none →
        move_product s src dst p q = .error (.notFound (dstNotFoundMsg dst))) ∧
    (∀ s src dst p q, 0 < q → (findLager s src).isSome → (findLager s dst).isSome →
        findProdukt s p = none →
        move_product s src dst p q = .error (.notFound (produktNotFoundMsg p))) ∧
    (∀ s src dst p q, 0 < q → (findLager s src).isSome → (findLager s dst).isSome →
        (findProdukt s p).isSome → findInventoryEntry s src p = none →
        move_product s src dst p q = .error (.notFound (entryNotFoundMsg src p))) ∧
    (∀ s src dst p q e, 0 < q → (findLager s src).isSome → (findLager s dst).isSome →
        (findProdukt s p).isSome → findInventoryEntry s src p = some e → e.menge < q →
        move_product s src dst p q = .error (.invalidArgument moveInsufficientMsg)) ∧
    (∀ a b, srcNotFoundMsg a ≠ dstNotFoundMsg b) ∧
    (∀ a b, srcNotFoundMsg a ≠ produktNotFoundMsg b) ∧
    (∀ a b, dstNotFoundMsg a ≠ produktNotFoundMsg b) ∧
    (∀ a b c, srcNotFoundMsg a ≠ entryNotFoundMsg b c) ∧
    (∀ a b c, dstNotFoundMsg a ≠ entryNotFoundMsg b c) ∧
    (∀ a b c, produktNotFoundMsg a ≠ entryNotFoundMsg b c) := by
  refine ⟨?_, ?_, ?_, ?_, ?_, ?_, ?_, ?_, ?_, ?_, ?_, ?_⟩
  · intro s src dst p q hq
    simp only [move_product]
    rw [if_pos hq]
  · intro s src dst p q hq h1
    simp only [move_product]
    rw [if_neg (by omega : ¬ q ≤ 0), h1]
  · intro s src dst p q hq h1 h2
    rcases Option.isSome_iff_exists.mp h1 with ⟨sw, hsw⟩
    simp only [move_product]
    rw [if_neg (by omega : ¬ q ≤ 0), hsw]
    dsimp only
    rw [h2]
  · intro s src dst p q hq h1 h2 h3
    rcases Option.isSome_iff_exists.mp h1 with ⟨sw, hsw⟩
    rcases Option.isSome_iff_exists.mp h2 with ⟨tw, htw⟩
    simp only [move_product]
    rw [if_neg (by omega : ¬ q ≤ 0), hsw]
    dsimp only
    rw [htw]
    dsimp only
    rw [h3]
  · intro s src dst p q hq h1 h2 h3 h4
    rcases Option.isSome_iff_exists.mp h1 with ⟨sw, hsw⟩
    rcases Option.isSome_iff_exists.mp h2 with ⟨tw, htw⟩
    rcases Option.isSome_iff_exists.mp h3 with ⟨pr, hpr⟩
    simp only [move_product]
    rw [if_neg (by omega : ¬ q ≤ 0), hsw]
    dsimp only
    rw [htw]
    dsimp only
    rw [hpr]
    dsimp only
    rw [h4]
  · intro s src dst p q e hq h1 h2 h3 h4 hlt
    rcases Option.isSome_iff_exists.mp h1 with ⟨sw, hsw⟩
    rcases Option.isSome_iff_exists.mp h2 with ⟨tw, htw⟩
    rcases Option.isSome_iff_exists.mp h3 with ⟨pr, hpr⟩
    simp only [move_product]
    rw [if_neg (by omega : ¬ q ≤ 0), hsw]
    dsimp only
    rw [htw]
    dsimp only
    rw [hpr]
    dsimp only
    rw [h4]
    dsimp only
    rw [if_pos hlt]
  · intro a b h
    exact absurd (show (some 'Q' : Option Char) = some 'Z' from
      congrArg (fun t => t.data.head?) h) (by decide)
  · intro a b h
    exact absurd (show (some 'Q' : Option Char) = some 'P' from
      congrArg (fun t => t.data.head?) h) (by decide)
  · intro a b h
    exact absurd (show (some 'Z' : Option Char) = some 'P' from
      congrArg (fun t => t.data.head?) h) (by decide)
  · intro a b c h
    exact absurd (show (some 'Q' : Option Char) = some 'K' from
      congrArg (fun t => t.data.head?) h) (by decide)
  · intro a b c h
    exact absurd (show (some 'Z' : Option Char) = some 'K' from
      congrArg (fun t => t.data.head?) h) (by decide)
  · intro a b c h
    exact absurd (show (some 'P' : Option Char) = some 'K' from
      congrArg (fun t => t.data.head?) h) (by decide)

/-- Witness for C6: each kind of `move_product` failure observed at a
concrete state, through the priority theorem. -/
theorem move_error_priority_witness :
    move_product sState "w1" "w2" "p1" 0 = .error (.invalidArgument moveQtyMsg) ∧
    move_product sState "nix" "w2" "p1" 5 = .error (.notFound (srcNotFoundMsg "nix")) ∧
    move_product sState "w1" "nix" "p1" 5 = .error (.notFound (dstNotFoundMsg "nix")) ∧
    move_product sState "w1" "w2" "nix" 5 = .error (.notFound (produktNotFoundMsg "nix")) ∧
    move_product sState "w3" "w1" "p1" 5 = .error (.notFound (entryNotFoundMsg "w3" "p1")) ∧
    move_product sState "w2" "w1" "p1" 999 = .error (.invalidArgument moveInsufficientMsg) :=
  ⟨move_error_priority.1 sState "w1" "w2" "p1" 0 (by decide),
   move_error_priority.2.1 sState "nix" "w2" "p1" 5 (by decide) (by rfl),
   move_error_priority.2.2.1 sState "w1" "nix" "p1" 5 (by decide) (by rfl) (by rfl),
   move_error_priority.2.2.2.1 sState "w1" "w2" "nix" 5 (by decide) (by rfl) (by rfl) (by rfl),
   move_error_priority.2.2.2.2.1 sState "w3" "w1" "p1" 5 (by decide) (by rfl) (by rfl)
     (by rfl) (by rfl),
   move_error_priority.2.2.2.2.2.1 sState "w2" "w1" "p1" 999 ⟨1, "w2", "p1", 20⟩ (by decide)
     (by rfl) (by rfl) (by rfl) (by rfl) (by decide)⟩


/-! ### Partial-update support lemmas -/

theorem checkName_ok {o : Option String} (h : ∀ n, o = some n → n.trim ≠ "") :
    checkName o = .ok (o.map String.trim) := by
  cases o with
  | none => rfl
  | some n =>
    simp only [checkName, Option.map]
    rw [if_neg (h n rfl)]

theorem checkGewicht_ok {o : Option Rat} (h : ∀ g, o = some g → 0 ≤ g) :
    checkGewicht o = .ok o := by
  cases o with
  | none => rfl
  | some g =>
    simp only [checkGewicht]
    rw [if_neg (not_lt.mpr (h g rfl))]

theorem find?_updateProduktList {l : List Produkt} {pid : String} {pr : Produkt}
    (hf : l.find? (pidPred pid) = some pr) (n b : Option String) (g : Option Rat) :
    (updateProduktList l pid n b g).find? (pidPred pid) = some (setProduktFields pr n b g) := by
  induction l with
  | nil => simp at hf
  | cons a t ih =>
    cases hk : pidPred pid a with
    | true =>
      rw [List.find?_cons_of_pos _ hk] at hf
      injection hf with hf
      subst hf
      have ha : a.pid = pid := by simpa [pidPred] using hk
      rw [show updateProduktList (a :: t) pid n b g = setProduktFields a n b g :: t from by
        simp [updateProduktList, ha]]
      exact List.find?_cons_of_pos _ (by simpa [pidPred, setProduktFields] using hk)
    | false =>
      have ha : a.pid ≠ pid := by simpa [pidPred] using hk
      rw [List.find?_cons_of_neg _ (by simp [hk])] at hf
      rw [show updateProduktList (a :: t) pid n b g = a :: updateProduktList t pid n b g from by
        simp [updateProduktList, ha]]
      rw [List.find?_cons_of_neg _ (by simp [hk])]
      exact ih hf

/-- Sample state for the partial-update scenarios: one stored product
with price 10. -/
def cs8 : DBState :=
  { produkte := [⟨"p1", "Alt", "B", 1, some 10⟩],
    lager := [],
    inventar := [],
    events := [],
    nextId := 0 }

/-- Payload supplying only a price, which `update_product` never
reads. -/
def upd8 : ProduktUpdate := ⟨none, none, none, some 99⟩

/-- C8 counterexample: supplying `preis` in the update payload does not
change the stored price — the update succeeds but the stored price is
still 10, not the supplied 99, so price is not user-settable through
the Catalog update. -/
theorem update_product_price_counterexample :
    (match update_product cs8 "p1" upd8 with
     | .ok (s2, _) => (findProdukt s2 "p1").map Produkt.preis
     | .error _ => none) = some (some 10) ∧
    ¬ ((match update_product cs8 "p1" upd8 with
        | .ok (s2, _) => (findProdukt s2 "p1").map Produkt.preis
        | .error _ => none) = some (some 99)) := by
  constructor
  · rfl
  · intro h
    rw [show (match update_product cs8 "p1" upd8 with
        | .ok (s2, _) => (findProdukt s2 "p1").map Produkt.preis
        | .error _ => none) = some (some 10) from rfl] at h
    injection h with h
    injection h with h
    exact absurd h (by norm_num)

/-- C8 amended: for an existing product, `update_product` applies each
supplied field among name (trimmed, must stay non-empty), description
(trimmed) and weight (must stay non-negative), leaves unsupplied fields
untouched, and never changes the stored price — even when the payload
supplies one. -/
theorem update_product_applies_fields :
    ∀ s pid pr d s2 r, findProdukt s pid = some pr →
      (∀ n, d.name = some n → n.trim ≠ "") →
      (∀ g, d.gewicht = some g → 0 ≤ g) →
      update_product s pid d = .ok (s2, r) →
      findProdukt s2 pid = some (setProduktFields pr (d.name.map String.trim)
          (d.beschreibung.map String.trim) d.gewicht) ∧
      r = some (setProduktFields pr (d.name.map String.trim)
          (d.beschreibung.map String.trim) d.gewicht) ∧
      (setProduktFields pr (d.name.map String.trim)
          (d.beschreibung.map String.trim) d.gewicht).preis = pr.preis := by
  intro s pid pr d s2 r hf hname hgew h
  simp only [update_product, hf] at h
  rw [checkName_ok hname] at h
  dsimp only at h
  rw [checkGewicht_ok hgew] at h
  dsimp only at h
  injection h with h
  injection h with h1 h2
  subst h1
  subst h2
  have hfind : (updateProduktList s.produkte pid (d.name.map String.trim)
      (d.beschreibung.map String.trim) d.gewicht).find? (pidPred pid) =
      some (setProduktFields pr (d.name.map String.trim)
        (d.beschreibung.map String.trim) d.gewicht) :=
    find?_updateProduktList hf _ _ _
  exact ⟨hfind, hfind, rfl⟩

/-- Payload for the C8 witness: weight and price supplied. -/
def upd8b : ProduktUpdate := ⟨none, none, some 2, some 99⟩

/-- State returned by the C8 witness update. -/
def w8s2 : DBState :=
  match update_product cs8 "p1" upd8b with
  | .ok (x, _) => x
  | .error _ => cs8

/-- Document returned by the C8 witness update. -/
def w8r : Option Produkt :=
  match update_product cs8 "p1" upd8b with
  | .ok (_, y) => y
  | .error _ => none

/-- Witness for the amended C8 at a concrete state. -/
theorem update_product_applies_fields_witness :
    findProdukt w8s2 "p1" = some (setProduktFields ⟨"p1", "Alt", "B", 1, some 10⟩
        (upd8b.name.map String.trim) (upd8b.beschreibung.map String.trim) upd8b.gewicht) ∧
    w8r = some (setProduktFields ⟨"p1", "Alt", "B", 1, some 10⟩
        (upd8b.name.map String.trim) (upd8b.beschreibung.map String.trim) upd8b.gewicht) ∧
    (setProduktFields ⟨"p1", "Alt", "B", 1, some 10⟩
        (upd8b.name.map String.trim) (upd8b.beschreibung.map String.trim)
        upd8b.gewicht).preis = (⟨"p1", "Alt", "B", 1, some 10⟩ : Produkt).preis :=
  update_product_applies_fields cs8 "p1" ⟨"p1", "Alt", "B", 1, some 10⟩ upd8b w8s2 w8r
    (by rfl) (fun n hn => Option.noConfusion hn) (fun g hg => by
      injection hg with hg
      rw [← hg]
      norm_num) (by rfl)


/-- Sample state for the capacity-guard scenarios: one warehouse with
an empty inventory. -/
def cs4 : DBState :=
  { produkte := [],
    lager := [⟨"w1", "Halle", "", 5⟩],
    inventar := [],
    events := [],
    nextId := 0 }

/-- C4 counterexample: with an empty warehouse (distinct product count
0) and requested capacity N = 0, N is not smaller than the count, so
the claimed iff predicts success — but the update fails
`InvalidArgument` on the positivity check. -/
theorem capacity_guard_counterexample :
    update_warehouse cs4 "w1" ⟨none, none, some 0⟩ =
      .error (.invalidArgument maxPlaetzeMsg) ∧
    ¬ ((0 : Int) < (distinctProduktCount (findInventoryByWarehouse cs4 "w1") : Int)) := by
  constructor
  · rfl
  · decide

/-- C4 amended: for an existing warehouse, `update_warehouse` with only
a capacity N supplied fails `InvalidArgument` iff N ≤ 0 or N is smaller
than the count of distinct product ids stocked in the warehouse
(counting rows with a non-empty product reference); otherwise it
succeeds. -/
theorem capacity_guard :
    ∀ s wid wh N, findLager s wid = some wh →
      ((∃ m, update_warehouse s wid ⟨none, none, some N⟩ = .error (.invalidArgument m)) ↔
        (N ≤ 0 ∨ N < (distinctProduktCount (findInventoryByWarehouse s wid) : Int))) ∧
      (0 < N → (distinctProduktCount (findInventoryByWarehouse s wid) : Int) ≤ N →
        ∃ s2 r, update_warehouse s wid ⟨none, none, some N⟩ = .ok (s2, r)) := by
  intro s wid wh N hw
  simp only [update_warehouse, hw, checkLagerName, checkMaxPlaetze]
  by_cases h1 : N ≤ 0
  · rw [if_pos h1]
    dsimp only
    refine ⟨⟨fun _ => Or.inl h1, fun _ => ⟨maxPlaetzeMsg, rfl⟩⟩, fun hpos _ => absurd hpos (by omega)⟩
  · rw [if_neg h1]
    by_cases h2 : N < (distinctProduktCount (findInventoryByWarehouse s wid) : Int)
    · rw [if_pos h2]
      dsimp only
      refine ⟨⟨fun _ => Or.inr h2, fun _ => ⟨_, rfl⟩⟩, fun _ hle => absurd h2 (by omega)⟩
    · rw [if_neg h2]
      dsimp only
      refine ⟨⟨?_, ?_⟩, ?_⟩
      · rintro ⟨m, hm⟩
        exact Except.noConfusion hm
      · rintro (h | h)
        · exact absurd h h1
        · exact absurd h h2
      · intro _ _
        exact ⟨_, _, rfl⟩

/-- Witness for the amended C4: capacity 3 on an empty warehouse
succeeds, and the failure characterisation holds there. -/
theorem capacity_guard_witness :
    ∃ s2 r, update_warehouse cs4 "w1" ⟨none, none, some 3⟩ = .ok (s2, r) :=
  (capacity_guard cs4 "w1" ⟨"w1", "Halle", "", 5⟩ 3 (by rfl)).2 (by decide) (by decide)


/-- C1: adding the same product to the same warehouse twice (with no
intervening mutation, starting from no row for the pair) merges into a
single row whose quantity is q1 + q2, with exactly one inventory row
for the pair; and every Movement Engine operation — `add_product`,
`update_quantity`, `remove_product`, `remove_stock`, `move_product`,
and the reads — preserves the invariant that at most one inventory row
exists per (warehouse, product) pair. -/
theorem merge_invariant :
    (∀ s w p q1 q2 pb1 pb2 s1 s2, WF s →
        findInventoryEntry s w p = none →
        add_product s w p q1 pb1 = .ok s1 →
        add_product s1 w p q2 pb2 = .ok s2 →
        (∃ e, findInventoryEntry s2 w p = some e ∧ e.menge = q1 + q2) ∧
          countKey s2.inventar w p = 1) ∧
    (∀ s w p q pb s2, UniqKeys s.inventar → add_product s w p q pb = .ok s2 →
        UniqKeys s2.inventar) ∧
    (∀ s w p q pb s2, UniqKeys s.inventar → update_quantity s w p q pb = .ok s2 →
        UniqKeys s2.inventar) ∧
    (∀ s w p pb s2, UniqKeys s.inventar → remove_product s w p pb = .ok s2 →
        UniqKeys s2.inventar) ∧
    (∀ s w p q pb s2, UniqKeys s.inventar → remove_stock s w p q pb = .ok s2 →
        UniqKeys s2.inventar) ∧
    (∀ s a b p q s2, UniqKeys s.inventar → move_product s a b p q = .ok s2 →
        UniqKeys s2.inventar) ∧
    (∀ s w s2 r, UniqKeys s.inventar → list_inventory s w = .ok (s2, r) →
        UniqKeys s2.inventar) ∧
    (∀ s, UniqKeys s.inventar → UniqKeys (get_total_inventory_value s).1.inventar) := by
  refine ⟨?_, ?_, ?_, ?_, ?_, ?_, ?_, ?_⟩
  · intro s w p q1 q2 pb1 pb2 s1 s2 hwf hnone h1 h2
    obtain ⟨hn, hfr, hu⟩ := hwf
    rw [findInventoryEntry] at hnone
    obtain ⟨wh1, pr1, hq1, hw1, hp1, hinv1⟩ := add_ok_inv h1
    rw [hnone] at hinv1
    dsimp only at hinv1
    have hfind1 : s1.inventar.find? (keyPred w p) = some ⟨s.nextId, w, p, q1⟩ := by
      rw [hinv1, find?_append_none hnone]
      exact List.find?_cons_of_pos _ (by simp [keyPred, keyMatch])
    have hn1 : NodupIds s1.inventar := by
      rw [hinv1]
      exact nodupIds_insert hn (fun x hx => Nat.ne_of_lt (hfr x hx)) w p q1
    have hu1 : UniqKeys s1.inventar := by
      rw [hinv1]
      exact uniqKeys_insert hu hnone s.nextId q1
    obtain ⟨wh2, pr2, hq2, hw2, hp2, hinv2⟩ := add_ok_inv h2
    rw [hfind1] at hinv2
    dsimp only at hinv2
    have hfind2 : s2.inventar.find? (keyPred w p) = some ⟨s.nextId, w, p, q1 + q2⟩ := by
      rw [hinv2]
      exact find?_updateMenge_self hn1 hfind1 (q1 + q2)
    have hu2 : UniqKeys s2.inventar := by
      rw [hinv2]
      exact uniqKeys_updateMenge hu1 _ _
    refine ⟨⟨⟨s.nextId, w, p, q1 + q2⟩, ?_, rfl⟩, ?_⟩
    · rw [findInventoryEntry]
      exact hfind2
    · exact countKey_eq_one hu2 hfind2
  · intro s w p q pb s2 hu h
    obtain ⟨wh, pr, hq, hw, hp, hinv⟩ := add_ok_inv h
    rw [hinv]
    cases hex : s.inventar.find? (keyPred w p) with
    | some ex => exact uniqKeys_updateMenge hu _ _
    | none => exact uniqKeys_insert hu hex _ _
  · intro s w p q pb s2 hu h
    obtain ⟨e, hq, he, hinv⟩ := update_quantity_ok_inv h
    rw [hinv]
    exact uniqKeys_updateMenge hu _ _
  · intro s w p pb s2 hu h
    obtain ⟨e, he, hinv⟩ := remove_product_ok_inv h
    rw [hinv]
    exact uniqKeys_deleteInv hu _
  · intro s w p q pb s2 hu h
    obtain ⟨e, hq, he, hle, hinv⟩ := remove_stock_ok_inv h
    rw [hinv]
    exact uniqKeys_updateMenge hu _ _
  · intro s a b p q s2 hu h
    obtain ⟨sw, tw, pr, e, hq, hsw, htw, hpr, he, hle, hinv⟩ := move_ok_inv h
    rw [hinv]
    simp only [moveInventar]
    by_cases hrem : 0 < e.menge - q
    · rw [if_pos hrem]
      have hu1 : UniqKeys (updateMenge s.inventar e.eid (e.menge - q)) :=
        uniqKeys_updateMenge hu _ _
      cases hdt : (updateMenge s.inventar e.eid (e.menge - q)).find? (keyPred b p) with
      | some t => exact uniqKeys_updateMenge hu1 _ _
      | none => exact uniqKeys_insert hu1 hdt _ _
    · rw [if_neg hrem]
      have hu1 : UniqKeys (deleteInv s.inventar e.eid) := uniqKeys_deleteInv hu _
      cases hdt : (deleteInv s.inventar e.eid).find? (keyPred b p) with
      | some t => exact uniqKeys_updateMenge hu1 _ _
      | none => exact uniqKeys_insert hu1 hdt _ _
  · intro s w s2 r hu h
    simp only [list_inventory] at h
    split at h
    · exact Except.noConfusion h
    · injection h with h
      injection h with h1 h2
      subst h1
      exact hu
  · intro s hu
    exact hu

/-- Sample state for the C1 witness: product and warehouse exist, no
inventory row yet. -/
def c1State : DBState :=
  { produkte := [⟨"p1", "Nagel", "", 1, some 20⟩],
    lager := [⟨"w1", "Halle1", "", 200⟩],
    inventar := [],
    events := [],
    nextId := 0 }

/-- State after the first add of the C1 witness. -/
def c1s1 : DBState :=
  match add_product c1State "w1" "p1" 100 "system" with
  | .ok x => x
  | .error _ => c1State

/-- State after the second add of the C1 witness. -/
def c1s2 : DBState :=
  match add_product c1s1 "w1" "p1" 50 "system" with
  | .ok x => x
  | .error _ => c1s1

/-- Witness for C1: add 100 then add 50 yields one row of quantity
150. -/
theorem merge_invariant_witness :
    (∃ e, findInventoryEntry c1s2 "w1" "p1" = some e ∧ e.menge = 100 + 50) ∧
      countKey c1s2.inventar "w1" "p1" = 1 :=
  merge_invariant.1 c1State "w1" "p1" 100 50 "system" "system" c1s1 c1s2
    (by decide) (by rfl) (by rfl) (by rfl)


/-- C2: a successful `move_product` between two distinct warehouses
conserves the total quantity of the product across the two warehouses
(an absent row counting as 0). -/
theorem move_conservation :
    ∀ s src dst p q s2, WF s → src ≠ dst → move_product s src dst p q = .ok s2 →
      qty s2 src p + qty s2 dst p = qty s src p + qty s dst p := by
  intro s src dst p q s2 hwf hne h
  obtain ⟨hn, hfr, hu⟩ := hwf
  obtain ⟨sw, tw, pr, e, hq, hsw, htw, hpr, he, hle, hinv⟩ := move_ok_inv h
  have hqs : qty s src p = e.menge := by rw [qty, findInventoryEntry, he]
  by_cases hrem : 0 < e.menge - q
  · have hinv2 : s2.inventar =
        (match (updateMenge s.inventar e.eid (e.menge - q)).find? (keyPred dst p) with
         | some t => updateMenge (updateMenge s.inventar e.eid (e.menge - q)) t.eid (t.menge + q)
         | none => updateMenge s.inventar e.eid (e.menge - q) ++ [⟨s.nextId, dst, p, q⟩]) := by
      rw [hinv]
      simp only [moveInventar]
      rw [if_pos hrem]
    have hsrc1 : (updateMenge s.inventar e.eid (e.menge - q)).find? (keyPred src p) =
        some { e with menge := e.menge - q } := find?_updateMenge_self hn he _
    have hdst1 : (updateMenge s.inventar e.eid (e.menge - q)).find? (keyPred dst p) =
        s.inventar.find? (keyPred dst p) :=
      find?_updateMenge_other (eid_key_other hn he hne p) _
    have hn1 : NodupIds (updateMenge s.inventar e.eid (e.menge - q)) :=
      nodupIds_updateMenge hn _ _
    cases hdt : (updateMenge s.inventar e.eid (e.menge - q)).find? (keyPred dst p) with
    | some t =>
      rw [hdt] at hinv2
      dsimp only at hinv2
      have hsd : qty s dst p = t.menge := by
        rw [qty, findInventoryEntry, ← hdst1, hdt]
      have hA : qty s2 src p = e.menge - q := by
        rw [qty, findInventoryEntry, hinv2,
          find?_updateMenge_other (eid_key_other hn1 hdt (Ne.symm hne) p) _, hsrc1]
      have hB : qty s2 dst p = t.menge + q := by
        rw [qty, findInventoryEntry, hinv2, find?_updateMenge_self hn1 hdt _]
      rw [hqs, hsd, hA, hB]
      omega
    | none =>
      rw [hdt] at hinv2
      dsimp only at hinv2
      have hsd : qty s dst p = 0 := by
        rw [qty, findInventoryEntry, ← hdst1, hdt]
      have hA : qty s2 src p = e.menge - q := by
        rw [qty, findInventoryEntry, hinv2, find?_append_some hsrc1]
      have hB : qty s2 dst p = q := by
        rw [qty, findInventoryEntry, hinv2, find?_append_none hdt]
        rw [List.find?_cons_of_pos _ (by simp [keyPred, keyMatch])]
      rw [hqs, hsd, hA, hB]
      omega
  · have hinv2 : s2.inventar =
        (match (deleteInv s.inventar e.eid).find? (keyPred dst p) with
         | some t => updateMenge (deleteInv s.inventar e.eid) t.eid (t.menge + q)
         | none => deleteInv s.inventar e.eid ++ [⟨s.nextId, dst, p, q⟩]) := by
      rw [hinv]
      simp only [moveInventar]
      rw [if_neg hrem]
    have hsrc1 : (deleteInv s.inventar e.eid).find? (keyPred src p) = none :=
      find?_deleteInv_self hn hu he
    have hdst1 : (deleteInv s.inventar e.eid).find? (keyPred dst p) =
        s.inventar.find? (keyPred dst p) :=
      find?_deleteInv_other (eid_key_other hn he hne p)
    have hn1 : NodupIds (deleteInv s.inventar e.eid) := nodupIds_deleteInv hn _
    cases hdt : (deleteInv s.inventar e.eid).find? (keyPred dst p) with
    | some t =>
      rw [hdt] at hinv2
      dsimp only at hinv2
      have hsd : qty s dst p = t.menge := by
        rw [qty, findInventoryEntry, ← hdst1, hdt]
      have hA : qty s2 src p = 0 := by
        rw [qty, findInventoryEntry, hinv2,
          find?_updateMenge_other (eid_key_other hn1 hdt (Ne.symm hne) p) _, hsrc1]
      have hB : qty s2 dst p = t.menge + q := by
        rw [qty, findInventoryEntry, hinv2, find?_updateMenge_self hn1 hdt _]
      rw [hqs, hsd, hA, hB]
      omega
    | none =>
      rw [hdt] at hinv2
      dsimp only at hinv2
      have hsd : qty s dst p = 0 := by
        rw [qty, findInventoryEntry, ← hdst1, hdt]
      have hA : qty s2 src p = 0 := by
        rw [qty, findInventoryEntry, hinv2, find?_append_none hsrc1]
        rw [List.find?_cons_of_neg _ (by simp [keyPred, keyMatch, Ne.symm hne])]
        rfl
      have hB : qty s2 dst p = q := by
        rw [qty, findInventoryEntry, hinv2, find?_append_none hdt]
        rw [List.find?_cons_of_pos _ (by simp [keyPred, keyMatch])]
      rw [hqs, hsd, hA, hB]
      omega

/-- State after the C2 witness move. -/
def c2s2 : DBState :=
  match move_product sState "w1" "w2" "p1" 30 with
  | .ok x => x
  | .error _ => sState

/-- Witness for C2: moving 30 units between the two stocked warehouses
conserves the total. -/
theorem move_conservation_witness :
    qty c2s2 "w1" "p1" + qty c2s2 "w2" "p1" =
      qty sState "w1" "p1" + qty sState "w2" "p1" :=
  move_conservation sState "w1" "w2" "p1" 30 c2s2 (by decide) (by decide) (by rfl)


/-- C3: drain-to-absence asymmetry.  A successful `remove_stock` that
takes the quantity exactly to 0 keeps the inventory row (present with
quantity 0); a successful `move_product` that drains the source row
deletes it, and otherwise updates it to the positive remainder. -/
theorem drain_asymmetry :
    (∀ s w p q pb s2 e, NodupIds s.inventar → findInventoryEntry s w p = some e →
        remove_stock s w p q pb = .ok s2 → q = e.menge →
        ∃ e2, findInventoryEntry s2 w p = some e2 ∧ e2.menge = 0) ∧
    (∀ s src dst p q s2 e, WF s → src ≠ dst → findInventoryEntry s src p = some e →
        move_product s src dst p q = .ok s2 → q = e.menge →
        findInventoryEntry s2 src p = none) ∧
    (∀ s src dst p q s2 e, WF s → src ≠ dst → findInventoryEntry s src p = some e →
        move_product s src dst p q = .ok s2 → q < e.menge →
        ∃ e2, findInventoryEntry s2 src p = some e2 ∧ e2.menge = e.menge - q) := by
  refine ⟨?_, ?_, ?_⟩
  · intro s w p q pb s2 e hn hf hok hq
    rw [findInventoryEntry] at hf
    obtain ⟨e2, hq2, he2, hle2, hinv⟩ := remove_stock_ok_inv hok
    rw [hf] at he2
    injection he2 with he2
    subst he2
    refine ⟨{ e with menge := e.menge - q }, ?_, by dsimp only; omega⟩
    rw [findInventoryEntry, hinv]
    exact find?_updateMenge_self hn hf _
  · intro s src dst p q s2 e hwf hne hf hok hq
    obtain ⟨hn, hfr, hu⟩ := hwf
    rw [findInventoryEntry] at hf
    obtain ⟨sw, tw, pr, e2, hq2, hsw, htw, hpr, he2, hle2, hinv⟩ := move_ok_inv hok
    rw [hf] at he2
    injection he2 with he2
    subst he2
    have hrem : ¬ 0 < e.menge - q := by omega
    have hsrc1 : (deleteInv s.inventar e.eid).find? (keyPred src p) = none :=
      find?_deleteInv_self hn hu hf
    have hn1 : NodupIds (deleteInv s.inventar e.eid) := nodupIds_deleteInv hn _
    have hinv2 : s2.inventar =
        (match (deleteInv s.inventar e.eid).find? (keyPred dst p) with
         | some t => updateMenge (deleteInv s.inventar e.eid) t.eid (t.menge + q)
         | none => deleteInv s.inventar e.eid ++ [⟨s.nextId, dst, p, q⟩]) := by
      rw [hinv]
      simp only [moveInventar]
      rw [if_neg hrem]
    cases hdt : (deleteInv s.inventar e.eid).find? (keyPred dst p) with
    | some t =>
      rw [hdt] at hinv2
      dsimp only at hinv2
      rw [findInventoryEntry, hinv2,
        find?_updateMenge_other (eid_key_other hn1 hdt (Ne.symm hne) p) _]
      exact hsrc1
    | none =>
      rw [hdt] at hinv2
      dsimp only at hinv2
      rw [findInventoryEntry, hinv2, find?_append_none hsrc1]
      rw [List.find?_cons_of_neg _ (by simp [keyPred, keyMatch, Ne.symm hne])]
      rfl
  · intro s src dst p q s2 e hwf hne hf hok hq
    obtain ⟨hn, hfr, hu⟩ := hwf
    rw [findInventoryEntry] at hf
    obtain ⟨sw, tw, pr, e2, hq2, hsw, htw, hpr, he2, hle2, hinv⟩ := move_ok_inv hok
    rw [hf] at he2
    injection he2 with he2
    subst he2
    have hrem : 0 < e.menge - q := by omega
    have hsrc1 : (updateMenge s.inventar e.eid (e.menge - q)).find? (keyPred src p) =
        some { e with menge := e.menge - q } := find?_updateMenge_self hn hf _
    have hn1 : NodupIds (updateMenge s.inventar e.eid (e.menge - q)) :=
      nodupIds_updateMenge hn _ _
    have hinv2 : s2.inventar =
        (match (updateMenge s.inventar e.eid (e.menge - q)).find? (keyPred dst p) with
         | some t => updateMenge (updateMenge s.inventar e.eid (e.menge - q)) t.eid (t.menge + q)
         | none => updateMenge s.inventar e.eid (e.menge - q) ++ [⟨s.nextId, dst, p, q⟩]) := by
      rw [hinv]
      simp only [moveInventar]
      rw [if_pos hrem]
    refine ⟨{ e with menge := e.menge - q }, ?_, rfl⟩
    cases hdt : (updateMenge s.inventar e.eid (e.menge - q)).find? (keyPred dst p) with
    | some t =>
      rw [hdt] at hinv2
      dsimp only at hinv2
      rw [findInventoryEntry, hinv2,
        find?_updateMenge_other (eid_key_other hn1 hdt (Ne.symm hne) p) _]
      exact hsrc1
    | none =>
      rw [hdt] at hinv2
      dsimp only at hinv2
      rw [findInventoryEntry, hinv2, find?_append_some hsrc1]

/-- State after the drain of the C3 witness: removing all 20 units via
`remove_stock`. -/
def c3rs : DBState :=
  match remove_stock sState "w2" "p1" 20 "system" with
  | .ok x => x
  | .error _ => sState

/-- State after the C3 witness move draining the source. -/
def c3ms : DBState :=
  match move_product sState "w2" "w1" "p1" 20 with
  | .ok x => x
  | .error _ => sState

/-- Witness for C3: `remove_stock` of the full quantity keeps the row
at 0; a full-quantity `move_product` deletes the source row. -/
theorem drain_asymmetry_witness :
    (∃ e2, findInventoryEntry c3rs "w2" "p1" = some e2 ∧ e2.menge = 0) ∧
      findInventoryEntry c3ms "w2" "p1" = none :=
  ⟨drain_asymmetry.1 sState "w2" "p1" 20 "system" c3rs ⟨1, "w2", "p1", 20⟩
      (by decide) (by rfl) (by rfl) (by decide),
   drain_asymmetry.2.1 sState "w2" "w1" "p1" 20 c3ms ⟨1, "w2", "p1", 20⟩
      (by decide) (by decide) (by rfl) (by rfl) (by decide)⟩

/-- C10: a successful `move_product` whose source and target warehouse
coincide leaves the quantity of the (warehouse, product) row unchanged
and exactly one row present — via re-read-and-increment when the
remainder is positive, and via delete-then-fresh-insert when the source
side drains to 0. -/
theorem self_move_identity :
    ∀ s w p q s2, WF s → move_product s w w p q = .ok s2 →
      qty s2 w p = qty s w p ∧ countKey s2.inventar w p = 1 := by
  intro s w p q s2 hwf h
  obtain ⟨hn, hfr, hu⟩ := hwf
  obtain ⟨sw, tw, pr, e, hq, hsw, htw, hpr, he, hle, hinv⟩ := move_ok_inv h
  have hqs : qty s w p = e.menge := by rw [qty, findInventoryEntry, he]
  by_cases hrem : 0 < e.menge - q
  · have hsrc1 : (updateMenge s.inventar e.eid (e.menge - q)).find? (keyPred w p) =
        some { e with menge := e.menge - q } := find?_updateMenge_self hn he _
    have hn1 : NodupIds (updateMenge s.inventar e.eid (e.menge - q)) :=
      nodupIds_updateMenge hn _ _
    have hu1 : UniqKeys (updateMenge s.inventar e.eid (e.menge - q)) :=
      uniqKeys_updateMenge hu _ _
    have hinv2 : s2.inventar = updateMenge (updateMenge s.inventar e.eid (e.menge - q))
        ({ e with menge := e.menge - q } : InvEntry).eid
        (({ e with menge := e.menge - q } : InvEntry).menge + q) := by
      rw [hinv]
      simp only [moveInventar]
      rw [if_pos hrem, hsrc1]
    have hfind2 : s2.inventar.find? (keyPred w p) =
        some { e with menge := e.menge - q + q } := by
      rw [hinv2]
      exact find?_updateMenge_self hn1 hsrc1 _
    constructor
    · rw [qty, findInventoryEntry, hfind2, hqs]
      dsimp only
      omega
    · exact countKey_eq_one (hinv2 ▸ uniqKeys_updateMenge hu1 _ _) hfind2
  · have hsrc1 : (deleteInv s.inventar e.eid).find? (keyPred w p) = none :=
      find?_deleteInv_self hn hu he
    have hinv2 : s2.inventar = deleteInv s.inventar e.eid ++ [⟨s.nextId, w, p, q⟩] := by
      rw [hinv]
      simp only [moveInventar]
      rw [if_neg hrem, hsrc1]
    have hfind2 : s2.inventar.find? (keyPred w p) = some ⟨s.nextId, w, p, q⟩ := by
      rw [hinv2, find?_append_none hsrc1]
      exact List.find?_cons_of_pos _ (by simp [keyPred, keyMatch])
    have hu2 : UniqKeys s2.inventar := by
      rw [hinv2]
      exact uniqKeys_insert (uniqKeys_deleteInv hu _) hsrc1 _ _
    constructor
    · rw [qty, findInventoryEntry, hfind2, hqs]
      dsimp only
      omega
    · exact countKey_eq_one hu2 hfind2

/-- State after the C10 witness self-move with positive remainder. -/
def c10a : DBState :=
  match move_product sState "w1" "w1" "p1" 30 with
  | .ok x => x
  | .error _ => sState

/-- Witness for C10: a self-move of 30 out of 100 units leaves the
quantity at 100 with one row. -/
theorem self_move_identity_witness :
    qty c10a "w1" "p1" = qty sState "w1" "p1" ∧ countKey c10a.inventar "w1" "p1" = 1 :=
  self_move_identity sState "w1" "p1" 30 c10a (by decide) (by rfl)

end BierApp
